import Mathlib

/-!
# go-serverless-api: a shallow embedding and its checked properties

The program is a three-route HTTP backend (`router` in `main.go`) over a DynamoDB table
(`db.go`) holding `Todo` records (`domain.go`).

* Go's multiple results `(T, error)` are pairs `T × Option error`; `none` is `nil`.
* The external services (the DynamoDB client `db` and the random source behind `uuid.NewV4`)
  are a parameter `Env σ` acting on an arbitrary state `σ`; every store call the program issues
  is also appended to a trace, and every `fmt.Println` to a list of printed lines.
* The deterministic libraries (`regexp`, `encoding/json`, `dynamodbattribute`, `net/http`) are
  modelled by functions on the inputs the program gives them; `encoding/json` is the one of
  Go 1.22: its syntax check refuses values nested deeper than 10000.
-/

namespace GoServerlessApi

/-! ## domain.go -/

/-- Go's `error` values, identified with the text `Error()` returns. -/
abbrev error := String

/-- The `Todo` struct of `domain.go`. -/
structure Todo where
  ID : String
  Title : String
  Description : String
  deriving DecidableEq, Repr

/-- The composite literal `Todo{}`. -/
def Todo.zero : Todo := { ID := "", Title := "", Description := "" }

/-! ## The DynamoDB client types the program uses -/

/-- A `dynamodb.AttributeValue`, restricted to the kinds `S`, `BOOL` and `NULL`. -/
inductive AttributeValue where
  | S (s : String)
  | BOOL (b : Bool)
  | NULL
  deriving DecidableEq, Repr

/-- A Go `map[string]*dynamodb.AttributeValue`, as an association list. -/
abbrev Item := List (String × AttributeValue)

structure GetItemInput where
  TableName : String
  Key : Item
  deriving DecidableEq, Repr

/-- The one field of `dynamodb.GetItemOutput` that is read; `none` is the nil map. -/
structure GetItemOutput where
  Item : Option Item
  deriving DecidableEq, Repr

structure ScanInput where
  TableName : String
  deriving DecidableEq, Repr

structure ScanOutput where
  Items : List Item
  deriving DecidableEq, Repr

structure PutItemInput where
  TableName : String
  Item : Item
  deriving DecidableEq, Repr

/-- A `uuid.UUID`: sixteen bytes. -/
structure UUID where
  bytes : Fin 16 → Fin 256

/-- The external collaborators: the three DynamoDB operations the program calls and the
generator behind `uuid.NewV4`, each a function of an external state `σ`. -/
structure Env (σ : Type) where
  GetItem : GetItemInput → σ → (GetItemOutput × Option error) × σ
  Scan : ScanInput → σ → (ScanOutput × Option error) × σ
  PutItem : PutItemInput → σ → Option error × σ
  NewV4 : σ → (UUID × Option error) × σ

/-- One call on the store client `db`. -/
inductive Call where
  | GetItem (input : GetItemInput)
  | Scan (input : ScanInput)
  | PutItem (input : PutItemInput)
  deriving DecidableEq, Repr

/-- What a run of the program can change: the external state, the trace of store calls
issued so far, and the lines written by `fmt.Println`. -/
structure World (σ : Type) where
  ext : σ
  calls : List Call
  stdout : List String

variable {σ : Type}

/-- The call `db.GetItem(input)`. -/
def db.GetItem (env : Env σ) (input : GetItemInput) (w : World σ) :
    (GetItemOutput × Option error) × World σ :=
  let r := env.GetItem input w.ext
  (r.1, { w with ext := r.2, calls := w.calls ++ [Call.GetItem input] })

/-- The call `db.Scan(input)`. -/
def db.Scan (env : Env σ) (input : ScanInput) (w : World σ) :
    (ScanOutput × Option error) × World σ :=
  let r := env.Scan input w.ext
  (r.1, { w with ext := r.2, calls := w.calls ++ [Call.Scan input] })

/-- The call `db.PutItem(input)`; only its error result is used by the program. -/
def db.PutItem (env : Env σ) (input : PutItemInput) (w : World σ) :
    Option error × World σ :=
  let r := env.PutItem input w.ext
  (r.1, { w with ext := r.2, calls := w.calls ++ [Call.PutItem input] })

/-- The call `uuid.NewV4()`. -/
def uuid.NewV4 (env : Env σ) (w : World σ) : (UUID × Option error) × World σ :=
  let r := env.NewV4 w.ext
  (r.1, { w with ext := r.2 })

/-- The statement `fmt.Println(err)`. -/
def fmt.Println (err : error) (w : World σ) : World σ :=
  { w with stdout := w.stdout ++ [err] }

/-- The constant `tableName` of `db.go`. -/
def tableName : String := "go-serverless-api"

/-! ## `fmt.Sprintf("%v", uuid)`: the canonical text of a UUID -/

/-- One lower-case hexadecimal digit. -/
def hexDigit (n : Nat) : Char :=
  if n < 10 then Char.ofNat (48 + n) else Char.ofNat (87 + n)

/-- The two hexadecimal digits of byte `i` of `u`. -/
def UUID.hexByte (u : UUID) (i : Nat) : List Char :=
  if h : i < 16 then [hexDigit ((u.bytes ⟨i, h⟩).val / 16), hexDigit ((u.bytes ⟨i, h⟩).val % 16)]
  else []

/-- The hexadecimal digits of the `n` bytes of `u` from index `lo` on. -/
def UUID.hexRange (u : UUID) (lo : Nat) : Nat → List Char
  | 0 => []
  | n + 1 => u.hexByte lo ++ UUID.hexRange u (lo + 1) n

/-- The method `UUID.String`, which `%v` prints: `xxxxxxxx-xxxx-xxxx-xxxx-xxxxxxxxxxxx`. -/
def UUID.String (u : UUID) : String :=
  String.mk (u.hexRange 0 4 ++ '-' :: u.hexRange 4 2 ++ '-' :: u.hexRange 6 2 ++
    '-' :: u.hexRange 8 2 ++ '-' :: u.hexRange 10 6)

/-! ## Field lookup shared by `dynamodbattribute` and `encoding/json`

Both libraries address the fields of `Todo` by the names of its `json` tags, preferring an
exact match and falling back to a case-insensitive one. -/

/-- The three fields of `Todo`. -/
inductive Field where
  | ID
  | Title
  | Description
  deriving DecidableEq, Repr

/-- The name in the field's `json` tag. -/
def Field.name : Field → String
  | .ID => "id"
  | .Title => "title"
  | .Description => "description"

/-- The fields in declaration order. -/
def fields : List Field := [Field.ID, Field.Title, Field.Description]

/-- Assignment to one field of a `Todo`. -/
def Todo.set (t : Todo) (f : Field) (s : String) : Todo :=
  match f with
  | .ID => { t with ID := s }
  | .Title => { t with Title := s }
  | .Description => { t with Description := s }

/-- Simple case folding towards the ASCII letters: upper case to lower case, and the two
other characters that fold to an ASCII letter, U+017F (to `s`) and U+212A (to `k`). -/
def foldChar (c : Char) : Char :=
  if 'A' ≤ c ∧ c ≤ 'Z' then Char.ofNat (c.toNat + 32)
  else if c = Char.ofNat 0x17F then 's'
  else if c = Char.ofNat 0x212A then 'k'
  else c

/-- Case-insensitive equality of a field name with a key (`strings.EqualFold`, and the fold
functions of `encoding/json`, whose first argument is one of the ASCII names above). -/
def EqualFold (name key : String) : Bool :=
  name.data.map foldChar == key.data.map foldChar

/-- The field a key addresses: the first field of that very name, else the first whose name
equals the key up to case. -/
def fieldByName (key : String) : Option Field :=
  match fields.find? (fun f => f.name == key) with
  | some f => some f
  | none => fields.find? (fun f => EqualFold f.name key)

/-! ## `dynamodbattribute.UnmarshalMap` and `UnmarshalListOfMaps` into `Todo` -/

/-- Decoding one attribute value into a string field: `S` is stored, `NULL` stores the zero
value, `BOOL` is a type error. -/
def decodeAttr (av : AttributeValue) (f : Field) (t : Todo) : Todo × Option error :=
  match av with
  | .S s => (t.set f s, none)
  | .NULL => (t.set f "", none)
  | .BOOL _ => (t, some "UnmarshalTypeError: cannot unmarshal bool into Go value of type string")

/-- Decoding the attributes of an item one after the other (in the order of the association
list) into the fields they address, stopping at the first error. -/
def decodeMap : Item → Todo → Todo × Option error
  | [], t => (t, none)
  | (k, av) :: rest, t =>
    match fieldByName k with
    | none => decodeMap rest t
    | some f =>
      match decodeAttr av f t with
      | (t1, none) => decodeMap rest t1
      | (t1, some e) => (t1, some e)

/-- The call `dynamodbattribute.UnmarshalMap(m, &out)`: the new value of `out` and the error. -/
def dynamodbattribute.UnmarshalMap (m : Item) (out : Todo) : Todo × Option error :=
  decodeMap m out

/-- The elements of `UnmarshalListOfMaps`, each decoded into a fresh `Todo`, up to and
including the first that fails. -/
def decodeList : List Item → List Todo × Option error
  | [] => ([], none)
  | m :: rest =>
    match decodeMap m Todo.zero with
    | (t, some e) => ([t], some e)
    | (t, none) => ((decodeList rest).1.cons t, (decodeList rest).2)

/-- The call `dynamodbattribute.UnmarshalListOfMaps(l, &out)` on a nil slice `out`: the new
value of `out` (`none` is the nil slice) and the error.  An empty list leaves `out` nil. -/
def dynamodbattribute.UnmarshalListOfMaps (l : List Item) : Option (List Todo) × Option error :=
  match l with
  | [] => (none, none)
  | _ :: _ => (some (decodeList l).1, (decodeList l).2)

/-! ## `regexp.MatchString`

The patterns covered are those made of literal characters, the class `.` and the repetition
`+` after either, such as the pattern `/todos/.+` of `router`. -/

/-- What one position of a pattern accepts: a given character, or (`.`) any character. -/
inductive Atom where
  | char (c : Char)
  | dot
  deriving DecidableEq, Repr

/-- The class `.` of Go's `regexp` without the `s` flag is every character but the line
feed. -/
def Atom.accepts : Atom → Char → Bool
  | .char a, c => a == c
  | .dot, c => c != Char.ofNat 10

/-- A piece of a pattern: an atom, once or (`+`) once or more. -/
structure Piece where
  atom : Atom
  plus : Bool
  deriving DecidableEq, Repr

/-- The atom a character of a pattern stands for. -/
def Atom.ofChar (c : Char) : Atom :=
  if c = '.' then Atom.dot else Atom.char c

/-- The pieces of a pattern. -/
def compile : List Char → List Piece
  | [] => []
  | [c] => [{ atom := Atom.ofChar c, plus := false }]
  | c :: d :: rest =>
    if d = '+' then { atom := Atom.ofChar c, plus := true } :: compile rest
    else { atom := Atom.ofChar c, plus := false } :: compile (d :: rest)

/-- A match of the pieces that starts at the head of the input (and ends anywhere). -/
def matchHere : List Piece → List Char → Bool
  | [], _ => true
  | _ :: _, [] => false
  | p :: ps, c :: cs =>
    p.atom.accepts c && (matchHere ps cs || (p.plus && matchHere (p :: ps) cs))

/-- A match of the pieces that starts anywhere in the input: a pattern without `^` is not
anchored. -/
def matchAnywhere (ps : List Piece) : List Char → Bool
  | [] => matchHere ps []
  | c :: cs => matchHere ps (c :: cs) || matchAnywhere ps cs

/-- The call `regexp.MatchString(pattern, s)`; the patterns covered are well formed, so the
error result is nil. -/
def regexp.MatchString (pattern s : String) : Bool × Option error :=
  (matchAnywhere (compile pattern.data) s.data, none)

/-! ## `net/http` -/

def http.StatusOK : Nat := 200
def http.StatusCreated : Nat := 201
def http.StatusMethodNotAllowed : Nat := 405
def http.StatusInternalServerError : Nat := 500

/-- The reason phrases of `http.StatusText` for the status codes the program names.  Go has
phrases for more codes; the program passes none of them, and they are the empty string here. -/
def http.StatusText (code : Nat) : String :=
  if code = 200 then "OK"
  else if code = 201 then "Created"
  else if code = 405 then "Method Not Allowed"
  else if code = 500 then "Internal Server Error"
  else ""

/-! ## `json.Marshal` of a `Todo` and of a `[]Todo` -/

/-- Four hexadecimal digits. -/
def hex4 (n : Nat) : List Char :=
  [hexDigit (n / 4096 % 16), hexDigit (n / 256 % 16), hexDigit (n / 16 % 16), hexDigit (n % 16)]

/-- One character inside a JSON string, as `encoding/json` (Go 1.22 and later) writes it with
HTML escaping on: quote and backslash are escaped by a backslash, backspace, form feed, line
feed, carriage return and tab by their letter, the remaining control characters, `<`, `>`,
`&`, U+2028 and U+2029 by `\u` and four digits. -/
def escapeChar (c : Char) : List Char :=
  if c = '"' ∨ c = '\\' then ['\\', c]
  else if c = Char.ofNat 8 then ['\\', 'b']
  else if c = Char.ofNat 12 then ['\\', 'f']
  else if c = Char.ofNat 10 then ['\\', 'n']
  else if c = Char.ofNat 13 then ['\\', 'r']
  else if c = Char.ofNat 9 then ['\\', 't']
  else if c.toNat < 32 ∨ c = '<' ∨ c = '>' ∨ c = '&' ∨ c.toNat = 0x2028 ∨ c.toNat = 0x2029 then
    '\\' :: 'u' :: hex4 c.toNat
  else [c]

/-- A Go string as a JSON string literal. -/
def encodeString (s : String) : List Char :=
  '"' :: (s.data.flatMap escapeChar ++ ['"'])

/-- The JSON object of a `Todo`: `id` is left out when empty (`omitempty`), then `title` and
`description`. -/
def encodeTodo (t : Todo) : List Char :=
  '\x7b' :: ((if t.ID = "" then [] else "\"id\":".data ++ encodeString t.ID ++ [',']) ++
    "\"title\":".data ++ encodeString t.Title ++
    ",\"description\":".data ++ encodeString t.Description ++ ['\x7d'])

/-- The call `json.Marshal(todo)`; encoding a struct of strings cannot fail. -/
def json.MarshalTodo (t : Todo) : String × Option error :=
  (String.mk (encodeTodo t), none)

/-- The elements of a JSON array, separated by commas. -/
def encodeElems : List Todo → List Char
  | [] => []
  | [t] => encodeTodo t
  | t :: rest => encodeTodo t ++ ',' :: encodeElems rest

/-- The call `json.Marshal(todos)` on a slice: `null` for the nil slice (`none`), else an
array. -/
def json.MarshalTodos (todos : Option (List Todo)) : String × Option error :=
  match todos with
  | none => ("null", none)
  | some l => (String.mk ('[' :: (encodeElems l ++ [']'])), none)

/-! ## `json.Unmarshal(data, &todo)`

The scanner and the decoder of `encoding/json` as of Go 1.22: the syntax check that limits
nesting to `maxNestingDepth`, then the decoding of the value into the `Todo`. -/

/-- The operation codes the step functions of `encoding/json`'s scanner return. -/
inductive Op where
  | Continue
  | BeginLiteral
  | BeginObject
  | ObjectKey
  | ObjectValue
  | EndObject
  | BeginArray
  | ArrayValue
  | EndArray
  | SkipSpace
  | End
  | Error
  deriving DecidableEq, Repr

/-- The entries of the scanner's parse stack. -/
inductive ParseState where
  | ObjectKey
  | ObjectValue
  | ArrayValue
  deriving DecidableEq, Repr

/-- The step functions of the scanner (`stateBeginValue`, `stateInString`, ...). -/
inductive StepFn where
  | BeginValueOrEmpty
  | BeginValue
  | BeginStringOrEmpty
  | BeginString
  | EndValue
  | EndTop
  | InString
  | InStringEsc
  | InStringEscU
  | InStringEscU1
  | InStringEscU12
  | InStringEscU123
  | Neg
  | S1
  | S0
  | Dot
  | Dot0
  | E
  | ESign
  | E0
  | T
  | Tr
  | Tru
  | F
  | Fa
  | Fal
  | Fals
  | N
  | Nu
  | Nul
  | Error
  deriving DecidableEq, Repr

/-- The scanner: its current step function, whether the top-level value has ended, the parse
stack (innermost entry first) and the error it has met. -/
structure Scanner where
  step : StepFn
  endTop : Bool
  parseState : List ParseState
  err : Option error
  deriving DecidableEq, Repr

/-- The scanner after `reset`. -/
def Scanner.reset : Scanner :=
  { step := StepFn.BeginValue, endTop := false, parseState := [], err := none }

def isSpace (c : Char) : Bool :=
  c = ' ' ∨ c = Char.ofNat 9 ∨ c = Char.ofNat 13 ∨ c = Char.ofNat 10

def isDigit (c : Char) : Bool := '0' ≤ c ∧ c ≤ '9'

def isHex (c : Char) : Bool :=
  ('0' ≤ c ∧ c ≤ '9') ∨ ('a' ≤ c ∧ c ≤ 'f') ∨ ('A' ≤ c ∧ c ≤ 'F')

/-- The first byte of the UTF-8 encoding of a character: the scanner reads bytes. -/
def leadByte (c : Char) : Nat :=
  if c.toNat < 0x80 then c.toNat
  else if c.toNat < 0x800 then 0xC0 + c.toNat / 64
  else if c.toNat < 0x10000 then 0xE0 + c.toNat / 4096
  else 0xF0 + c.toNat / 262144

/-- The function `quoteChar` of the scanner, on the first byte of the character: the byte in
single quotes, written as `strconv.Quote` writes it but for the two quote characters.  The
control bytes without a letter of their own, DEL among them, are written `\x` and two
digits. -/
def quoteChar (c : Char) : String :=
  let b := leadByte c
  if b = 39 then "'\\''"
  else if b = 34 then "'\"'"
  else if b = 92 then "'\\\\'"
  else if b = 7 then "'\\a'"
  else if b = 8 then "'\\b'"
  else if b = 12 then "'\\f'"
  else if b = 10 then "'\\n'"
  else if b = 13 then "'\\r'"
  else if b = 9 then "'\\t'"
  else if b = 11 then "'\\v'"
  else if b < 32 ∨ b = 127 then
    String.mk ['\'', '\\', 'x', hexDigit (b / 16), hexDigit (b % 16), '\'']
  else String.mk ['\'', Char.ofNat b, '\'']

/-- The method `(*scanner).error`. -/
def Scanner.error (s : Scanner) (c : Char) (context : String) : Scanner × Op :=
  ({ s with step := StepFn.Error,
            err := some ("invalid character " ++ quoteChar c ++ " " ++ context) }, Op.Error)

/-- The function `stateEndTop`: the error for a non-space byte is recorded, to be reported at
the next step. -/
def stateEndTop (s : Scanner) (c : Char) : Scanner × Op :=
  if !isSpace c then ((s.error c "after top-level value").1, Op.End) else (s, Op.End)

/-- The method `popParseState`. -/
def Scanner.popParseState (s : Scanner) : Scanner :=
  let rest := s.parseState.tail
  if rest.length = 0 then { s with parseState := rest, step := StepFn.EndTop, endTop := true }
  else { s with parseState := rest, step := StepFn.EndValue }

/-- The function `stateEndValue`. -/
def stateEndValue (s : Scanner) (c : Char) : Scanner × Op :=
  match s.parseState with
  | [] => stateEndTop { s with step := StepFn.EndTop, endTop := true } c
  | ps :: rest =>
    if isSpace c then ({ s with step := StepFn.EndValue }, Op.SkipSpace)
    else match ps with
    | .ObjectKey =>
      if c = ':' then
        ({ s with parseState := ParseState.ObjectValue :: rest, step := StepFn.BeginValue },
          Op.ObjectKey)
      else s.error c "after object key"
    | .ObjectValue =>
      if c = ',' then
        ({ s with parseState := ParseState.ObjectKey :: rest, step := StepFn.BeginString },
          Op.ObjectValue)
      else if c = '\x7d' then (s.popParseState, Op.EndObject)
      else s.error c "after object key:value pair"
    | .ArrayValue =>
      if c = ',' then ({ s with step := StepFn.BeginValue }, Op.ArrayValue)
      else if c = ']' then (s.popParseState, Op.EndArray)
      else s.error c "after array element"

/-- The constant `maxNestingDepth`: how deep arrays and objects may nest. -/
def maxNestingDepth : Nat := 10000

/-- The method `pushParseState`: the new entry is pushed, and a stack deeper than
`maxNestingDepth` is an error. -/
def Scanner.pushParseState (s : Scanner) (c : Char) (newParseState : ParseState)
    (successState : Op) : Scanner × Op :=
  if (newParseState :: s.parseState).length ≤ maxNestingDepth then
    ({ s with parseState := newParseState :: s.parseState }, successState)
  else Scanner.error { s with parseState := newParseState :: s.parseState } c "exceeded max depth"

/-- The function `stateBeginValue`. -/
def stateBeginValue (s : Scanner) (c : Char) : Scanner × Op :=
  if isSpace c then (s, Op.SkipSpace)
  else if c = '\x7b' then
    Scanner.pushParseState { s with step := StepFn.BeginStringOrEmpty } c
      ParseState.ObjectKey Op.BeginObject
  else if c = '[' then
    Scanner.pushParseState { s with step := StepFn.BeginValueOrEmpty } c
      ParseState.ArrayValue Op.BeginArray
  else if c = '"' then ({ s with step := StepFn.InString }, Op.BeginLiteral)
  else if c = '-' then ({ s with step := StepFn.Neg }, Op.BeginLiteral)
  else if c = '0' then ({ s with step := StepFn.S0 }, Op.BeginLiteral)
  else if c = 't' then ({ s with step := StepFn.T }, Op.BeginLiteral)
  else if c = 'f' then ({ s with step := StepFn.F }, Op.BeginLiteral)
  else if c = 'n' then ({ s with step := StepFn.N }, Op.BeginLiteral)
  else if '1' ≤ c ∧ c ≤ '9' then ({ s with step := StepFn.S1 }, Op.BeginLiteral)
  else s.error c "looking for beginning of value"

/-- The function `stateBeginString`. -/
def stateBeginString (s : Scanner) (c : Char) : Scanner × Op :=
  if isSpace c then (s, Op.SkipSpace)
  else if c = '"' then ({ s with step := StepFn.InString }, Op.BeginLiteral)
  else s.error c "looking for beginning of object key string"

/-- A step function for one letter of a literal `true`, `false` or `null`. -/
def stateLetter (s : Scanner) (c : Char) (want : Char) (next : StepFn) (lit : String) :
    Scanner × Op :=
  if c = want then ({ s with step := next }, Op.Continue)
  else s.error c ("in literal " ++ lit ++ " (expecting '" ++ String.mk [want] ++ "')")

/-- One step of the scanner: the call `s.step(s, c)`. -/
def Scanner.doStep (s : Scanner) (c : Char) : Scanner × Op :=
  match s.step with
  | .BeginValueOrEmpty =>
    if isSpace c then (s, Op.SkipSpace)
    else if c = ']' then stateEndValue s c
    else stateBeginValue s c
  | .BeginValue => stateBeginValue s c
  | .BeginStringOrEmpty =>
    if isSpace c then (s, Op.SkipSpace)
    else if c = '\x7d' then
      stateEndValue { s with parseState := ParseState.ObjectValue :: s.parseState.tail } c
    else stateBeginString s c
  | .BeginString => stateBeginString s c
  | .EndValue => stateEndValue s c
  | .EndTop => stateEndTop s c
  | .InString =>
    if c = '"' then ({ s with step := StepFn.EndValue }, Op.Continue)
    else if c = '\\' then ({ s with step := StepFn.InStringEsc }, Op.Continue)
    else if c.toNat < 0x20 then s.error c "in string literal"
    else (s, Op.Continue)
  | .InStringEsc =>
    if c = 'b' ∨ c = 'f' ∨ c = 'n' ∨ c = 'r' ∨ c = 't' ∨ c = '\\' ∨ c = '/' ∨ c = '"' then
      ({ s with step := StepFn.InString }, Op.Continue)
    else if c = 'u' then ({ s with step := StepFn.InStringEscU }, Op.Continue)
    else s.error c "in string escape code"
  | .InStringEscU =>
    if isHex c then ({ s with step := StepFn.InStringEscU1 }, Op.Continue)
    else s.error c "in \\u hexadecimal character escape"
  | .InStringEscU1 =>
    if isHex c then ({ s with step := StepFn.InStringEscU12 }, Op.Continue)
    else s.error c "in \\u hexadecimal character escape"
  | .InStringEscU12 =>
    if isHex c then ({ s with step := StepFn.InStringEscU123 }, Op.Continue)
    else s.error c "in \\u hexadecimal character escape"
  | .InStringEscU123 =>
    if isHex c then ({ s with step := StepFn.InString }, Op.Continue)
    else s.error c "in \\u hexadecimal character escape"
  | .Neg =>
    if c = '0' then ({ s with step := StepFn.S0 }, Op.Continue)
    else if '1' ≤ c ∧ c ≤ '9' then ({ s with step := StepFn.S1 }, Op.Continue)
    else s.error c "in numeric literal"
  | .S1 =>
    if isDigit c then ({ s with step := StepFn.S1 }, Op.Continue)
    else if c = '.' then ({ s with step := StepFn.Dot }, Op.Continue)
    else if c = 'e' ∨ c = 'E' then ({ s with step := StepFn.E }, Op.Continue)
    else stateEndValue s c
  | .S0 =>
    if c = '.' then ({ s with step := StepFn.Dot }, Op.Continue)
    else if c = 'e' ∨ c = 'E' then ({ s with step := StepFn.E }, Op.Continue)
    else stateEndValue s c
  | .Dot =>
    if isDigit c then ({ s with step := StepFn.Dot0 }, Op.Continue)
    else s.error c "after decimal point in numeric literal"
  | .Dot0 =>
    if isDigit c then (s, Op.Continue)
    else if c = 'e' ∨ c = 'E' then ({ s with step := StepFn.E }, Op.Continue)
    else stateEndValue s c
  | .E =>
    if c = '+' ∨ c = '-' then ({ s with step := StepFn.ESign }, Op.Continue)
    else if isDigit c then ({ s with step := StepFn.E0 }, Op.Continue)
    else s.error c "in exponent of numeric literal"
  | .ESign =>
    if isDigit c then ({ s with step := StepFn.E0 }, Op.Continue)
    else s.error c "in exponent of numeric literal"
  | .E0 =>
    if isDigit c then (s, Op.Continue)
    else stateEndValue s c
  | .T => stateLetter s c 'r' StepFn.Tr "true"
  | .Tr => stateLetter s c 'u' StepFn.Tru "true"
  | .Tru => stateLetter s c 'e' StepFn.EndValue "true"
  | .F => stateLetter s c 'a' StepFn.Fa "false"
  | .Fa => stateLetter s c 'l' StepFn.Fal "false"
  | .Fal => stateLetter s c 's' StepFn.Fals "false"
  | .Fals => stateLetter s c 'e' StepFn.EndValue "false"
  | .N => stateLetter s c 'u' StepFn.Nu "null"
  | .Nu => stateLetter s c 'l' StepFn.Nul "null"
  | .Nul => stateLetter s c 'l' StepFn.EndValue "null"
  | .Error => (s, Op.Error)

/-- A JSON value as the decoder sees it: strings unquoted, numbers as written. -/
inductive JValue where
  | null
  | bool (b : Bool)
  | number (lit : List Char)
  | string (s : String)
  | array (elems : List JValue)
  | object (members : List (String × JValue))

/-- The value of a hexadecimal digit. -/
def hexVal (c : Char) : Nat :=
  if '0' ≤ c ∧ c ≤ '9' then c.toNat - 48
  else if 'a' ≤ c ∧ c ≤ 'f' then c.toNat - 87
  else c.toNat - 55

/-- A unit of a string literal's content: a character, written as itself or by a
one-letter escape, or the number of a `\u` escape. -/
inductive Unit16 where
  | raw (c : Char)
  | esc (n : Nat)

/-- The character a one-letter escape stands for. -/
def escaped (c : Char) : Char :=
  if c = 'b' then Char.ofNat 8
  else if c = 'f' then Char.ofNat 12
  else if c = 'n' then Char.ofNat 10
  else if c = 'r' then Char.ofNat 13
  else if c = 't' then Char.ofNat 9
  else c

/-- The content of a string literal split into its units. -/
def units : List Char → List Unit16
  | [] => []
  | c :: rest =>
    if c = '\\' then
      match rest with
      | [] => []
      | e :: rest2 =>
        if e = 'u' then
          match rest2 with
          | h1 :: h2 :: h3 :: h4 :: rest3 =>
            Unit16.esc (hexVal h1 * 4096 + hexVal h2 * 256 + hexVal h3 * 16 + hexVal h4) ::
              units rest3
          | _ => []
        else Unit16.raw (escaped e) :: units rest2
    else Unit16.raw c :: units rest

/-- The characters of the units: a `\u` escape of a high surrogate directly followed by one
of a low surrogate is the character of the pair, any other surrogate U+FFFD. -/
def combine : List Unit16 → List Char
  | [] => []
  | Unit16.raw c :: rest => c :: combine rest
  | [Unit16.esc n] => [if 0xD800 ≤ n ∧ n < 0xE000 then Char.ofNat 0xFFFD else Char.ofNat n]
  | Unit16.esc n :: Unit16.raw c :: rest =>
    (if 0xD800 ≤ n ∧ n < 0xE000 then Char.ofNat 0xFFFD else Char.ofNat n) :: c :: combine rest
  | Unit16.esc n :: Unit16.esc m :: rest =>
    if 0xD800 ≤ n ∧ n < 0xDC00 ∧ 0xDC00 ≤ m ∧ m < 0xE000 then
      Char.ofNat ((n - 0xD800) * 1024 + (m - 0xDC00) + 0x10000) :: combine rest
    else
      (if 0xD800 ≤ n ∧ n < 0xE000 then Char.ofNat 0xFFFD else Char.ofNat n) ::
        combine (Unit16.esc m :: rest)

/-- The function `unquote` on a string literal, quotes included. -/
def unquote (lit : List Char) : String :=
  String.mk (combine (units (lit.tail.dropLast)))

/-- The value of a scanned literal, told by its first byte. -/
def literalValue (lit : List Char) : JValue :=
  match lit with
  | [] => JValue.null
  | c :: _ =>
    if c = '"' then JValue.string (unquote lit)
    else if c = 't' then JValue.bool true
    else if c = 'f' then JValue.bool false
    else if c = 'n' then JValue.null
    else JValue.number lit

/-- An object or array under construction. -/
inductive Frame where
  | object (members : List (String × JValue)) (key : Option String)
  | array (elems : List JValue)

/-- The decoder's reading of the scanned bytes: the bytes of the literal being scanned (last
byte first), the value completed last and not yet stored, and the open objects and arrays
(innermost first). -/
structure Reader where
  lit : Option (List Char)
  done : Option JValue
  stack : List Frame

def Reader.init : Reader := { lit := none, done := none, stack := [] }

/-- A literal ends at the first byte that does not continue it. -/
def Reader.flush (r : Reader) : Reader :=
  match r.lit with
  | none => r
  | some buf => { r with lit := none, done := some (literalValue buf.reverse) }

/-- The members of an object with the pending member, if any, added. -/
def closeMembers (members : List (String × JValue)) (key : Option String)
    (done : Option JValue) : List (String × JValue) :=
  match key, done with
  | some k, some v => members ++ [(k, v)]
  | _, _ => members

/-- The elements of an array with the pending element, if any, added. -/
def closeElems (elems : List JValue) (done : Option JValue) : List JValue :=
  match done with
  | some v => elems ++ [v]
  | none => elems

/-- The reader's reaction to one byte and the operation code the scanner returned for it. -/
def Reader.feed (r : Reader) (c : Char) (op : Op) : Reader :=
  match op with
  | .Continue => { r with lit := r.lit.map (fun buf => c :: buf) }
  | .BeginLiteral => { r with lit := some [c] }
  | .BeginObject => { r.flush with stack := Frame.object [] none :: r.stack }
  | .BeginArray => { r.flush with stack := Frame.array [] :: r.stack }
  | .ObjectKey =>
    match r.flush.done, r.stack with
    | some (JValue.string k), Frame.object members _ :: rest =>
      { lit := none, done := none, stack := Frame.object members (some k) :: rest }
    | _, _ => r.flush
  | .ObjectValue =>
    match r.stack with
    | Frame.object members key :: rest =>
      { lit := none, done := none,
        stack := Frame.object (closeMembers members key r.flush.done) none :: rest }
    | _ => r.flush
  | .EndObject =>
    match r.stack with
    | Frame.object members key :: rest =>
      { lit := none, done := some (JValue.object (closeMembers members key r.flush.done)),
        stack := rest }
    | _ => r.flush
  | .ArrayValue =>
    match r.stack with
    | Frame.array elems :: rest =>
      { lit := none, done := none, stack := Frame.array (closeElems elems r.flush.done) :: rest }
    | _ => r.flush
  | .EndArray =>
    match r.stack with
    | Frame.array elems :: rest =>
      { lit := none, done := some (JValue.array (closeElems elems r.flush.done)), stack := rest }
    | _ => r.flush
  | .SkipSpace => r.flush
  | .End => r.flush
  | .Error => r

/-- The scanner and the reader run over the bytes of the input. -/
def scanAll : List Char → Scanner × Reader → Scanner × Reader
  | [], sr => sr
  | c :: cs, (s, r) => scanAll cs ((s.doStep c).1, r.feed c (s.doStep c).2)

/-- The method `(*scanner).eof` after the last byte: a pending error stands; a finished
top-level value is accepted; otherwise a space is fed, which ends a number, and an input still
unfinished is an `unexpected end of JSON input`. -/
def scanEof (sr : Scanner × Reader) : Scanner × Reader :=
  match sr.1.err with
  | some _ => sr
  | none =>
    if sr.1.endTop then sr
    else
      let s1 := (sr.1.doStep ' ').1
      let r1 := sr.2.feed ' ' (sr.1.doStep ' ').2
      if s1.endTop then (s1, r1)
      else match s1.err with
        | some _ => (s1, r1)
        | none => ({ s1 with err := some "unexpected end of JSON input" }, r1)

/-- The syntax check `checkValid` that `json.Unmarshal` runs first, together with the value
read: the error, or the top-level value. -/
def parse (data : String) : Except error JValue :=
  let sr := scanEof (scanAll data.data (Scanner.reset, Reader.init))
  match sr.1.err with
  | some e => Except.error e
  | none => Except.ok (sr.2.done.getD JValue.null)

/-- The word `UnmarshalTypeError` uses for the kind of a JSON value. -/
def JValue.kind : JValue → String
  | .null => "null"
  | .bool _ => "bool"
  | .number _ => "number"
  | .string _ => "string"
  | .array _ => "array"
  | .object _ => "object"

/-- Storing a member's value into the field its key addresses: a string is stored, `null`
changes nothing, any other value is a type error and changes nothing. -/
def storeField (f : Field) (v : JValue) (t : Todo) : Todo × Option error :=
  match v with
  | .string s => (t.set f s, none)
  | .null => (t, none)
  | v => (t, some ("json: cannot unmarshal " ++ v.kind ++ " into Go struct field Todo." ++
      f.name ++ " of type string"))

/-- Decoding the members of an object in order; members whose key addresses no field are
skipped; decoding goes on after a type error, and the first such error is the one saved. -/
def decodeMembers : List (String × JValue) → Todo → Option error → Todo × Option error
  | [], t, saved => (t, saved)
  | (k, v) :: rest, t, saved =>
    match fieldByName k with
    | none => decodeMembers rest t saved
    | some f =>
      decodeMembers rest (storeField f v t).1
        (match saved with
         | some e => some e
         | none => (storeField f v t).2)

/-- Decoding the top-level value into a `Todo`: an object by its members, `null` changes
nothing, any other value is a type error. -/
def decodeValue (v : JValue) (t : Todo) : Todo × Option error :=
  match v with
  | .object members => decodeMembers members t none
  | .null => (t, none)
  | v => (t, some ("json: cannot unmarshal " ++ v.kind ++ " into Go value of type main.Todo"))

/-- The call `json.Unmarshal([]byte(data), &out)`: the new value of `out` and the error. -/
def json.Unmarshal (data : String) (out : Todo) : Todo × Option error :=
  match parse data with
  | Except.error e => (out, some e)
  | Except.ok v => decodeValue v out

/-! ## db.go -/

/-- `GetTodo` retrieves one Todo from the DB based on its ID (`db.go`). -/
def GetTodo (env : Env σ) (uuid : String) (w : World σ) : (Todo × Option error) × World σ :=
  -- Prepares the input to retrieve the item with the given ID
  let input : GetItemInput :=
    { TableName := tableName, Key := [("id", AttributeValue.S uuid)] }
  -- Retrieves the item
  match db.GetItem env input w with
  | ((_, some err), w1) => ((Todo.zero, some err), w1)
  | ((result, none), w1) =>
    match result.Item with
    | none => ((Todo.zero, none), w1)
    | some item =>
      -- Unmarshals the object retrieved into a domain struct
      match dynamodbattribute.UnmarshalMap item Todo.zero with
      | (_, some err) => ((Todo.zero, some err), w1)
      | (todo, none) => ((todo, none), w1)

/-- `GetTodos` retrieves all the Todos from the DB (`db.go`).  The slice result is
`Option (List Todo)`, `none` being the nil slice and `some []` the literal `[]Todo{}`. -/
def GetTodos (env : Env σ) (w : World σ) : (Option (List Todo) × Option error) × World σ :=
  -- Prepares the input to scan the whole table
  let input : ScanInput := { TableName := tableName }
  match db.Scan env input w with
  | ((_, some err), w1) => ((some [], some err), w1)
  | ((result, none), w1) =>
    if result.Items.length = 0 then ((some [], none), w1)
    else
      -- Unmarshals the array retrieved into a domain struct's slice
      match dynamodbattribute.UnmarshalListOfMaps result.Items with
      | (_, some err) => ((some [], some err), w1)
      | (todos, none) => ((todos, none), w1)

/-- `CreateTodo` inserts a new Todo item to the table (`db.go`). -/
def CreateTodo (env : Env σ) (todo : Todo) (w : World σ) : Option error × World σ :=
  -- Generates a new random ID
  match uuid.NewV4 env w with
  | ((_, some err), w1) => (some err, w1)
  | ((uuid, none), w1) =>
    -- Creates the item that's going to be inserted
    let input : PutItemInput :=
      { TableName := tableName,
        Item := [("id", AttributeValue.S uuid.String),
                 ("title", AttributeValue.S todo.Title),
                 ("description", AttributeValue.S todo.Description)] }
    db.PutItem env input w1

/-! ## main.go -/

/-- The fields of `events.APIGatewayProxyRequest` the program reads.  `PathParameters` is a Go
map, here an association list. -/
structure APIGatewayProxyRequest where
  HTTPMethod : String
  Path : String
  PathParameters : List (String × String)
  Body : String
  deriving DecidableEq, Repr

/-- The fields of `events.APIGatewayProxyResponse` the program sets. -/
structure APIGatewayProxyResponse where
  StatusCode : Nat
  Body : String
  deriving DecidableEq, Repr

/-- Indexing a Go `map[string]string`: the zero value `""` for a key that is absent. -/
def mapIndex (m : List (String × String)) (k : String) : String :=
  (m.lookup k).getD ""

/-- The handler `handleGetTodo` of `main.go`. -/
def handleGetTodo (env : Env σ) (req : APIGatewayProxyRequest) (w : World σ) :
    (APIGatewayProxyResponse × Option error) × World σ :=
  -- Retrieves the ID from the URL
  let id := mapIndex req.PathParameters "id"
  -- Fetches the requested Todo
  match GetTodo env id w with
  | ((_, some err), w1) =>
    (({ StatusCode := http.StatusInternalServerError,
        Body := http.StatusText http.StatusInternalServerError }, none), fmt.Println err w1)
  | ((todo, none), w1) =>
    -- Marshals the struct so the API Gateway is able to proccess it
    match json.MarshalTodo todo with
    | (_, some err) =>
      (({ StatusCode := http.StatusInternalServerError,
          Body := http.StatusText http.StatusInternalServerError }, none), fmt.Println err w1)
    | (js, none) => (({ StatusCode := http.StatusOK, Body := js }, none), w1)

/-- The handler `handleGetTodos` of `main.go`. -/
def handleGetTodos (env : Env σ) (_req : APIGatewayProxyRequest) (w : World σ) :
    (APIGatewayProxyResponse × Option error) × World σ :=
  -- Fetches all the Todos
  match GetTodos env w with
  | ((_, some err), w1) =>
    (({ StatusCode := http.StatusInternalServerError,
        Body := http.StatusText http.StatusInternalServerError }, none), fmt.Println err w1)
  | ((todos, none), w1) =>
    -- Marshals the struct so the API Gateway is able to proccess it
    match json.MarshalTodos todos with
    | (_, some err) =>
      (({ StatusCode := http.StatusInternalServerError,
          Body := http.StatusText http.StatusInternalServerError }, none), fmt.Println err w1)
    | (js, none) => (({ StatusCode := http.StatusOK, Body := js }, none), w1)

/-- The handler `handleCreateTodo` of `main.go`. -/
def handleCreateTodo (env : Env σ) (req : APIGatewayProxyRequest) (w : World σ) :
    (APIGatewayProxyResponse × Option error) × World σ :=
  -- Unmarshals the request's body
  match json.Unmarshal req.Body Todo.zero with
  | (_, some err) =>
    (({ StatusCode := http.StatusInternalServerError, Body := err }, none), fmt.Println err w)
  | (todo, none) =>
    -- Inserts the Todo into the table
    match CreateTodo env todo w with
    | (some err, w1) =>
      (({ StatusCode := http.StatusInternalServerError, Body := err }, none), fmt.Println err w1)
    | (none, w1) => (({ StatusCode := http.StatusCreated, Body := "Created" }, none), w1)

/-- The block `if req.HTTPMethod == "GET" { ... }` of `router`: `some` result when the block
returns, `none` when control falls out of it. -/
def routerGet (env : Env σ) (req : APIGatewayProxyRequest) (w : World σ) :
    Option ((APIGatewayProxyResponse × Option error) × World σ) :=
  if req.HTTPMethod = "GET" then
    let hasID := (regexp.MatchString "/todos/.+" req.Path).1
    if hasID then some (handleGetTodo env req w)
    else if req.Path = "/todos" then some (handleGetTodos env req w)
    else none
  else none

/-- The function `router` of `main.go`. -/
def router (env : Env σ) (req : APIGatewayProxyRequest) (w : World σ) :
    (APIGatewayProxyResponse × Option error) × World σ :=
  -- Routes the application to the correct handler based in the request's path
  match routerGet env req w with
  | some r => r
  | none =>
    if req.HTTPMethod = "POST" then handleCreateTodo env req w
    else
      (({ StatusCode := http.StatusMethodNotAllowed,
          Body := http.StatusText http.StatusMethodNotAllowed }, none), w)

/-! ## A model key-value store -/

/-- The state of the model store: the items of the one table, an outage (when set, every
store operation fails with that error and changes nothing), and the outcomes of the
successive calls of `uuid.NewV4`. -/
structure Store where
  table : List Item
  down : Option error
  rand : Nat → UUID × Option error
  next : Nat

/-- The primary key of an item: its attribute `id`. -/
def keyOf (item : Item) : Option AttributeValue := item.lookup "id"

/-- The model store as an environment: `GetItem` returns the item with the key asked for,
`Scan` all items, `PutItem` replaces the item of the same key or adds a new one. -/
def kv : Env Store where
  GetItem := fun input st =>
    match st.down with
    | some e => (({ Item := none }, some e), st)
    | none => (({ Item := st.table.find? (fun it => keyOf it == keyOf input.Key) }, none), st)
  Scan := fun _ st =>
    match st.down with
    | some e => (({ Items := [] }, some e), st)
    | none => (({ Items := st.table }, none), st)
  PutItem := fun input st =>
    match st.down with
    | some e => (some e, st)
    | none =>
      (none, { st with
        table := input.Item :: st.table.filter (fun it => keyOf it != keyOf input.Item) })
  NewV4 := fun st => (st.rand st.next, { st with next := st.next + 1 })

/-- The UUID whose sixteen bytes all equal `b`. -/
def UUID.const (b : Fin 256) : UUID := { bytes := fun _ => b }

/-- A world around the model store: the given table and outage, a generator that always
succeeds, no call issued and nothing printed yet. -/
def World.init (table : List Item) (down : Option error) : World Store :=
  { ext := { table := table, down := down, rand := fun n => (UUID.const (Fin.ofNat n), none),
             next := 0 },
    calls := [], stdout := [] }

/-! ## Requests and predicates the statements below refer to -/

/-- The request `GET /x/todos/y` with the path parameter `id = y`. -/
def reqNested : APIGatewayProxyRequest :=
  { HTTPMethod := "GET", Path := "/x/todos/y", PathParameters := [("id", "y")], Body := "" }

/-- The request `GET /todos/abc` whose path parameter `id` is `xyz`. -/
def reqAbc : APIGatewayProxyRequest :=
  { HTTPMethod := "GET", Path := "/todos/abc", PathParameters := [("id", "xyz")], Body := "" }

/-- The request `GET /todos/` followed by a line feed, with the path parameter `id` set to
that line feed. -/
def reqLineFeed : APIGatewayProxyRequest :=
  { HTTPMethod := "GET", Path := "/todos/\n", PathParameters := [("id", "\n")], Body := "" }

/-- The request `POST /anything` with a title and a description in its body. -/
def reqPost : APIGatewayProxyRequest :=
  { HTTPMethod := "POST", Path := "/anything", PathParameters := [],
    Body := "\x7b\"title\":\"x\",\"description\":\"y\"\x7d" }

/-- The request `POST /anything` whose body is one opening bracket more than the nesting
limit of the JSON syntax check allows. -/
def reqDeep : APIGatewayProxyRequest :=
  { HTTPMethod := "POST", Path := "/anything", PathParameters := [],
    Body := String.mk (List.replicate maxNestingDepth '[' ++ ['[']) }

/-- Every error the scanner holds has a message. -/
def Scanner.Sound (s : Scanner) : Prop := ∀ e, s.err = some e → e ≠ ""

/-! ## Properties of the library models -/

theorem matchHere_char (a : Char) (ps : List Piece) (cs : List Char) :
    matchHere ({ atom := Atom.char a, plus := false } :: ps) cs = true ↔
      ∃ rest, cs = a :: rest ∧ matchHere ps rest = true := by
  cases cs with
  | nil => simp [matchHere]
  | cons c cs =>
    by_cases h : a = c
    · simp [matchHere, Atom.accepts, h]
    · simp [matchHere, Atom.accepts, h, Ne.symm h]

theorem matchHere_dot_plus (cs : List Char) :
    matchHere [{ atom := Atom.dot, plus := true }] cs = true ↔
      ∃ c post, cs = c :: post ∧ c ≠ Char.ofNat 10 := by
  cases cs with
  | nil => simp [matchHere]
  | cons c cs => simp [matchHere, Atom.accepts]

/-- The pieces of the pattern of `router`. -/
theorem compile_todos : compile "/todos/.+".data =
    [{ atom := Atom.char '/', plus := false }, { atom := Atom.char 't', plus := false },
     { atom := Atom.char 'o', plus := false }, { atom := Atom.char 'd', plus := false },
     { atom := Atom.char 'o', plus := false }, { atom := Atom.char 's', plus := false },
     { atom := Atom.char '/', plus := false }, { atom := Atom.dot, plus := true }] := by
  decide

theorem matchHere_iff (cs : List Char) :
    matchHere (compile "/todos/.+".data) cs = true ↔
      ∃ c post, cs = "/todos/".data ++ c :: post ∧ c ≠ Char.ofNat 10 := by
  rw [compile_todos]
  simp only [matchHere_char, matchHere_dot_plus]
  constructor
  · rintro ⟨r1, h1, r2, h2, r3, h3, r4, h4, r5, h5, r6, h6, r7, h7, c, post, h8, hc⟩
    subst h1 h2 h3 h4 h5 h6 h7 h8
    exact ⟨c, post, rfl, hc⟩
  · rintro ⟨c, post, h, hc⟩
    subst h
    exact ⟨_, rfl, _, rfl, _, rfl, _, rfl, _, rfl, _, rfl, _, rfl, c, post, rfl, hc⟩

/-- The pattern `/todos/.+` matches exactly the strings in which some occurrence of `/todos/`
is directly followed by a character other than the line feed. -/
theorem matchAnywhere_iff (cs : List Char) :
    matchAnywhere (compile "/todos/.+".data) cs = true ↔
      ∃ pre c post, cs = pre ++ "/todos/".data ++ c :: post ∧ c ≠ Char.ofNat 10 := by
  induction cs with
  | nil =>
    constructor
    · intro h
      rw [matchAnywhere, matchHere_iff] at h
      obtain ⟨c, post, h, _⟩ := h
      simp at h
    · rintro ⟨pre, c, post, h, _⟩
      simp at h
  | cons a cs ih =>
    rw [matchAnywhere, Bool.or_eq_true, matchHere_iff, ih]
    constructor
    · rintro (⟨c, post, h, hc⟩ | ⟨pre, c, post, h, hc⟩)
      · exact ⟨[], c, post, by simpa using h, hc⟩
      · exact ⟨a :: pre, c, post, by simp [h], hc⟩
    · rintro ⟨pre, c, post, h, hc⟩
      cases pre with
      | nil => exact Or.inl ⟨c, post, by simpa using h, hc⟩
      | cons b pre =>
        simp only [List.cons_append, List.cons.injEq] at h
        exact Or.inr ⟨pre, c, post, h.2, hc⟩

theorem matchAnywhere_todos_segment (s : String)
    (hs : ∃ c rest, s.data = c :: rest ∧ c ≠ Char.ofNat 10) :
    matchAnywhere (compile "/todos/.+".data) ("/todos/" ++ s).data = true := by
  obtain ⟨c, rest, hd, hc⟩ := hs
  rw [matchAnywhere_iff]
  exact ⟨[], c, rest, by simp [hd], hc⟩

theorem UnmarshalMap_created (u t d : String) :
    dynamodbattribute.UnmarshalMap
      [("id", AttributeValue.S u), ("title", AttributeValue.S t),
       ("description", AttributeValue.S d)] Todo.zero =
      ({ ID := u, Title := t, Description := d }, none) := by
  have h1 : fieldByName "id" = some Field.ID := by decide
  have h2 : fieldByName "title" = some Field.Title := by decide
  have h3 : fieldByName "description" = some Field.Description := by decide
  simp [dynamodbattribute.UnmarshalMap, decodeMap, h1, h2, h3, decodeAttr, Todo.set, Todo.zero]

theorem append_ne_empty (a b : String) (h : a ≠ "") : a ++ b ≠ "" := by
  intro hab
  have h1 := congrArg String.length hab
  rw [String.length_append] at h1
  have h2 : a.length = 0 := by
    have : "".length = 0 := rfl
    omega
  exact h (String.ext (List.length_eq_zero.mp h2))

theorem Scanner.error_sound (s : Scanner) (c : Char) (context : String) :
    (s.error c context).1.Sound := by
  intro e he
  simp only [Scanner.error, Option.some.injEq] at he
  subst he
  repeat rw [String.append_assoc]
  exact append_ne_empty _ _ (by decide)

theorem stateEndTop_sound (s : Scanner) (c : Char) (h : s.Sound) : (stateEndTop s c).1.Sound := by
  unfold stateEndTop
  split
  · exact Scanner.error_sound s c _
  · exact h

theorem Scanner.popParseState_sound (s : Scanner) (h : s.Sound) : s.popParseState.Sound := by
  unfold Scanner.popParseState
  simp only []
  split <;> exact h

theorem stateEndValue_sound (s : Scanner) (c : Char) (h : s.Sound) :
    (stateEndValue s c).1.Sound := by
  unfold stateEndValue
  split
  · exact stateEndTop_sound _ c h
  · split
    · exact h
    · split <;> (repeat' split) <;>
        first
        | exact Scanner.error_sound s c _
        | exact Scanner.popParseState_sound s h
        | exact h

theorem Scanner.pushParseState_sound (s : Scanner) (c : Char) (ps : ParseState) (op : Op)
    (h : s.Sound) : (s.pushParseState c ps op).1.Sound := by
  unfold Scanner.pushParseState
  split
  · exact h
  · exact Scanner.error_sound _ c _

theorem stateBeginValue_sound (s : Scanner) (c : Char) (h : s.Sound) :
    (stateBeginValue s c).1.Sound := by
  unfold stateBeginValue
  repeat' split
  all_goals first
    | exact Scanner.error_sound s c _
    | exact Scanner.pushParseState_sound _ c _ _ h
    | exact h

theorem stateBeginString_sound (s : Scanner) (c : Char) (h : s.Sound) :
    (stateBeginString s c).1.Sound := by
  unfold stateBeginString
  repeat' split
  all_goals first
    | exact Scanner.error_sound s c _
    | exact h

theorem stateLetter_sound (s : Scanner) (c want : Char) (next : StepFn) (lit : String)
    (h : s.Sound) : (stateLetter s c want next lit).1.Sound := by
  unfold stateLetter
  split
  · exact h
  · exact Scanner.error_sound s c _

theorem Scanner.doStep_sound (s : Scanner) (c : Char) (h : s.Sound) : (s.doStep c).1.Sound := by
  unfold Scanner.doStep
  split
  all_goals repeat' split
  all_goals first
    | exact Scanner.error_sound s c _
    | exact stateEndValue_sound _ c h
    | exact stateBeginValue_sound _ c h
    | exact stateBeginString_sound _ c h
    | exact stateEndTop_sound _ c h
    | exact stateLetter_sound _ _ _ _ _ h
    | exact h

theorem scanAll_sound (cs : List Char) (sr : Scanner × Reader) (h : sr.1.Sound) :
    (scanAll cs sr).1.Sound := by
  induction cs generalizing sr with
  | nil => exact h
  | cons c cs ih =>
    obtain ⟨s, r⟩ := sr
    exact ih _ (Scanner.doStep_sound s c h)

theorem scanEof_sound (sr : Scanner × Reader) (h : sr.1.Sound) : (scanEof sr).1.Sound := by
  unfold scanEof
  split
  · exact h
  · split
    · exact h
    · simp only []
      split
      · exact Scanner.doStep_sound _ _ h
      · split
        · exact Scanner.doStep_sound _ _ h
        · intro e he
          simp only [Option.some.injEq] at he
          subst he
          decide

theorem parse_error_ne_empty (data : String) (e : error) (h : parse data = Except.error e) :
    e ≠ "" := by
  have hs : (scanEof (scanAll data.data (Scanner.reset, Reader.init))).1.Sound :=
    scanEof_sound _ (scanAll_sound _ _ (by intro e he; cases he))
  unfold parse at h
  simp only [] at h
  split at h
  · rename_i e1 he1
    cases h
    exact hs _ he1
  · cases h

theorem storeField_error_ne_empty (f : Field) (v : JValue) (t : Todo) (e : error)
    (h : (storeField f v t).2 = some e) : e ≠ "" := by
  unfold storeField at h
  split at h
  · cases h
  · cases h
  · simp only [Option.some.injEq] at h
    subst h
    repeat rw [String.append_assoc]
    exact append_ne_empty _ _ (by decide)

theorem decodeMembers_error_ne_empty (ms : List (String × JValue)) (t : Todo)
    (saved : Option error) (hs : ∀ e, saved = some e → e ≠ "") (e : error)
    (h : (decodeMembers ms t saved).2 = some e) : e ≠ "" := by
  induction ms generalizing t saved with
  | nil => exact hs e h
  | cons m ms ih =>
    obtain ⟨k, v⟩ := m
    unfold decodeMembers at h
    split at h
    · exact ih t saved hs h
    · rename_i f hf
      refine ih _ _ ?_ h
      intro e1 he1
      cases saved with
      | some e0 =>
        simp only [Option.some.injEq] at he1
        subst he1
        exact hs e0 rfl
      | none => exact storeField_error_ne_empty f v t e1 he1

/-- Every error `json.Unmarshal` returns has a non-empty message. -/
theorem Unmarshal_error_ne_empty (data : String) (out : Todo) (e : error)
    (h : (json.Unmarshal data out).2 = some e) : e ≠ "" := by
  unfold json.Unmarshal at h
  split at h
  · rename_i e1 he1
    simp only [Option.some.injEq] at h
    subst h
    exact parse_error_ne_empty data _ he1
  · rename_i v hv
    unfold decodeValue at h
    split at h
    · exact decodeMembers_error_ne_empty _ _ none (by intro e he; cases he) e h
    · cases h
    · simp only [Option.some.injEq] at h
      subst h
      repeat rw [String.append_assoc]
      exact append_ne_empty _ _ (by decide)

theorem scanAll_append (xs ys : List Char) (sr : Scanner × Reader) :
    scanAll (xs ++ ys) sr = scanAll ys (scanAll xs sr) := by
  induction xs generalizing sr with
  | nil => rfl
  | cons c cs ih =>
    obtain ⟨s, r⟩ := sr
    exact ih _

theorem doStep_open_bracket (s : Scanner)
    (hstep : s.step = StepFn.BeginValue ∨ s.step = StepFn.BeginValueOrEmpty) :
    s.doStep '[' = Scanner.pushParseState { s with step := StepFn.BeginValueOrEmpty } '['
      ParseState.ArrayValue Op.BeginArray := by
  have h1 : isSpace '[' = false := by decide
  have h2 : ('[' = '\x7b') = False := by decide
  have h3 : ('[' = ']') = False := by decide
  rcases hstep with h | h <;> simp [Scanner.doStep, h, stateBeginValue, h1, h2, h3]

/-- Opening brackets up to the nesting limit are scanned without error. -/
theorem scanAll_open_brackets (n : Nat) (s : Scanner) (r : Reader) (herr : s.err = none)
    (hstep : s.step = StepFn.BeginValue ∨ s.step = StepFn.BeginValueOrEmpty)
    (hdepth : s.parseState.length + n ≤ maxNestingDepth) :
    (scanAll (List.replicate n '[') (s, r)).1.err = none ∧
    ((scanAll (List.replicate n '[') (s, r)).1.step = StepFn.BeginValue ∨
      (scanAll (List.replicate n '[') (s, r)).1.step = StepFn.BeginValueOrEmpty) ∧
    (scanAll (List.replicate n '[') (s, r)).1.parseState.length = s.parseState.length + n := by
  induction n generalizing s r with
  | zero => exact ⟨herr, hstep, rfl⟩
  | succ n ih =>
    have hle : (ParseState.ArrayValue :: s.parseState).length ≤ maxNestingDepth := by
      simp only [List.length_cons]; omega
    have hd : s.doStep '[' =
        ({ s with step := StepFn.BeginValueOrEmpty,
                  parseState := ParseState.ArrayValue :: s.parseState }, Op.BeginArray) := by
      rw [doStep_open_bracket s hstep]
      simp only [Scanner.pushParseState, hle, if_true]
    simp only [List.replicate_succ, scanAll, hd]
    have := ih { s with step := StepFn.BeginValueOrEmpty,
                        parseState := ParseState.ArrayValue :: s.parseState }
      (r.feed '[' Op.BeginArray) herr (Or.inr rfl)
      (by simp only [List.length_cons]; omega)
    refine ⟨this.1, this.2.1, ?_⟩
    rw [this.2.2]
    simp only [List.length_cons]
    omega

theorem scan_to_nesting_limit :
    ∃ s r, scanAll (List.replicate maxNestingDepth '[') (Scanner.reset, Reader.init) = (s, r) ∧
      (s.step = StepFn.BeginValue ∨ s.step = StepFn.BeginValueOrEmpty) ∧
      s.parseState.length = maxNestingDepth := by
  obtain ⟨_, h2, h3⟩ := scanAll_open_brackets maxNestingDepth Scanner.reset Reader.init rfl
    (Or.inl rfl) (Nat.le_of_eq (Nat.zero_add _))
  rcases hs : scanAll (List.replicate maxNestingDepth '[') (Scanner.reset, Reader.init)
    with ⟨s, r⟩
  rw [hs] at h2 h3
  exact ⟨s, r, rfl, h2, h3.trans (Nat.zero_add _)⟩

theorem doStep_beyond_nesting_limit (s : Scanner)
    (hstep : s.step = StepFn.BeginValue ∨ s.step = StepFn.BeginValueOrEmpty)
    (hdepth : s.parseState.length = maxNestingDepth) :
    (s.doStep '[').1.err = some "invalid character '[' exceeded max depth" := by
  rw [doStep_open_bracket s hstep]
  have hgt : ¬ (ParseState.ArrayValue :: s.parseState).length ≤ maxNestingDepth := by
    simp only [List.length_cons]; omega
  simp only [Scanner.pushParseState, hgt, if_false, Scanner.error]
  decide

theorem parse_error_at_last (cs : List Char) (c : Char) (s : Scanner) (r : Reader) (e : error)
    (hs : scanAll cs (Scanner.reset, Reader.init) = (s, r))
    (hd : (s.doStep c).1.err = some e) :
    parse (String.mk (cs ++ [c])) = Except.error e := by
  unfold parse
  simp only [scanAll_append, hs, scanAll, scanEof, hd]

theorem Unmarshal_of_parse_error (cs : List Char) (out : Todo) (e : error)
    (hp : parse (String.mk cs) = Except.error e) :
    json.Unmarshal (String.mk cs) out = (out, some e) := by
  unfold json.Unmarshal
  rw [hp]

/-- One opening bracket more than the nesting limit allows is an error of the syntax check,
so `json.Unmarshal` fails on such a body. -/
theorem Unmarshal_nested_too_deep (out : Todo) :
    json.Unmarshal (String.mk (List.replicate maxNestingDepth '[' ++ ['['])) out =
      (out, some "invalid character '[' exceeded max depth") := by
  obtain ⟨s, r, hs, h2, h4⟩ := scan_to_nesting_limit
  exact Unmarshal_of_parse_error _ out _
    (parse_error_at_last _ _ s r _ hs (doStep_beyond_nesting_limit s h2 h4))

/-! ## What the handlers do -/

theorem GetTodo_world (env : Env σ) (id : String) (w : World σ) :
    (GetTodo env id w).2 =
      (db.GetItem env { TableName := tableName, Key := [("id", AttributeValue.S id)] } w).2 := by
  unfold GetTodo
  simp only []
  split
  · rename_i h; rw [h]
  · rename_i h; rw [h]
    split
    · rfl
    · split <;> rfl

theorem handleGetTodo_world (env : Env σ) (req : APIGatewayProxyRequest) (w : World σ) :
    (handleGetTodo env req w).2.ext = (GetTodo env (mapIndex req.PathParameters "id") w).2.ext ∧
    (handleGetTodo env req w).2.calls =
      (GetTodo env (mapIndex req.PathParameters "id") w).2.calls := by
  unfold handleGetTodo
  simp only []
  split
  · rename_i h; rw [h]; simp [fmt.Println]
  · rename_i h; rw [h]
    split
    · simp [fmt.Println]
    · simp

theorem handleGetTodo_calls (env : Env σ) (req : APIGatewayProxyRequest) (w : World σ) :
    (handleGetTodo env req w).2.calls = w.calls ++
      [Call.GetItem { TableName := tableName,
                      Key := [("id", AttributeValue.S (mapIndex req.PathParameters "id"))] }] := by
  rw [(handleGetTodo_world env req w).2, GetTodo_world]
  rfl

theorem handleGetTodos_calls (env : Env σ) (req : APIGatewayProxyRequest) (w : World σ) :
    (handleGetTodos env req w).2.calls = w.calls ++ [Call.Scan { TableName := tableName }] := by
  have hg : (GetTodos env w).2 = (db.Scan env { TableName := tableName } w).2 := by
    unfold GetTodos
    simp only []
    split
    · rename_i h; rw [h]
    · rename_i h; rw [h]
      split
      · rfl
      · split <;> rfl
  have hh : (handleGetTodos env req w).2.calls = (GetTodos env w).2.calls := by
    unfold handleGetTodos
    split
    · rename_i h; rw [h]; simp [fmt.Println]
    · rename_i h; rw [h]
      split
      · simp [fmt.Println]
      · simp
  rw [hh, hg]
  rfl

theorem router_of_match (env : Env σ) (req : APIGatewayProxyRequest) (w : World σ)
    (hget : req.HTTPMethod = "GET")
    (hm : matchAnywhere (compile "/todos/.+".data) req.Path.data = true) :
    router env req w = handleGetTodo env req w := by
  simp [router, routerGet, hget, regexp.MatchString, hm]

theorem handleGetTodo_response (env : Env σ) (req : APIGatewayProxyRequest) (w : World σ) :
    (handleGetTodo env req w).1.2 = none ∧
    ((handleGetTodo env req w).1.1.StatusCode = 200 ∨
      (handleGetTodo env req w).1.1.StatusCode = 500) := by
  unfold handleGetTodo
  simp only []
  split
  · simp [http.StatusInternalServerError]
  · split
    · simp [http.StatusInternalServerError]
    · simp [http.StatusOK]

theorem handleGetTodos_response (env : Env σ) (req : APIGatewayProxyRequest) (w : World σ) :
    (handleGetTodos env req w).1.2 = none ∧
    ((handleGetTodos env req w).1.1.StatusCode = 200 ∨
      (handleGetTodos env req w).1.1.StatusCode = 500) := by
  unfold handleGetTodos
  split
  · simp [http.StatusInternalServerError]
  · split
    · simp [http.StatusInternalServerError]
    · simp [http.StatusOK]

theorem handleCreateTodo_response (env : Env σ) (req : APIGatewayProxyRequest) (w : World σ) :
    (handleCreateTodo env req w).1.2 = none ∧
    ((handleCreateTodo env req w).1.1.StatusCode = 201 ∨
      (handleCreateTodo env req w).1.1.StatusCode = 500) := by
  unfold handleCreateTodo
  split
  · simp [http.StatusInternalServerError]
  · split
    · simp [http.StatusInternalServerError]
    · simp [http.StatusCreated]

theorem router_cases (env : Env σ) (req : APIGatewayProxyRequest) (w : World σ) :
    router env req w = handleGetTodo env req w ∨ router env req w = handleGetTodos env req w ∨
    router env req w = handleCreateTodo env req w ∨
    router env req w = (({ StatusCode := 405, Body := "Method Not Allowed" }, none), w) := by
  unfold router routerGet
  by_cases hg : req.HTTPMethod = "GET"
  · by_cases hm : (regexp.MatchString "/todos/.+" req.Path).1 = true
    · simp [hg, hm]
    · by_cases hp : req.Path = "/todos"
      · simp only [hg, hm, ↓reduceIte]
        simp [hp]
      · have hpost : req.HTTPMethod ≠ "POST" := by rw [hg]; decide
        simp [hg, hm, hp, hpost, http.StatusMethodNotAllowed, http.StatusText]
  · by_cases hpost : req.HTTPMethod = "POST"
    · simp [hg, hpost]
    · simp [hg, hpost, http.StatusMethodNotAllowed, http.StatusText]

theorem handleCreateTodo_parse_error (env : Env σ) (req : APIGatewayProxyRequest) (w : World σ)
    (e : error) (h : (json.Unmarshal req.Body Todo.zero).2 = some e) :
    handleCreateTodo env req w =
      (({ StatusCode := 500, Body := e }, none), fmt.Println e w) := by
  unfold handleCreateTodo
  split
  · rename_i t e1 h1
    rw [h1] at h
    simp only [Option.some.injEq] at h
    subst h
    rfl
  · rename_i t h1
    rw [h1] at h
    cases h

theorem handleCreateTodo_parsed (env : Env σ) (req : APIGatewayProxyRequest) (w : World σ)
    (h : (json.Unmarshal req.Body Todo.zero).2 = none) :
    handleCreateTodo env req w =
      match CreateTodo env (json.Unmarshal req.Body Todo.zero).1 w with
      | (some err, w1) => (({ StatusCode := 500, Body := err }, none), fmt.Println err w1)
      | (none, w1) => (({ StatusCode := 201, Body := "Created" }, none), w1) := by
  unfold handleCreateTodo
  split
  · rename_i t e1 h1
    rw [h1] at h
    cases h
  · rename_i t h1
    rw [h1]
    rfl

/-! ## The claims -/

/-- C1: round trip over the model key-value store.  For every Todo `P` (any title, any
description, any caller-supplied id) and every state of the store, if `CreateTodo P` succeeds
and `u` is the identifier generated for it, then `GetTodo u` on the resulting store returns,
with a nil error, the Todo with the title and the description of `P` and the id `u`. -/
theorem create_then_get_round_trip (P : Todo) (w : World Store) (u : String)
    (hok : (CreateTodo kv P w).1 = none)
    (hu : (uuid.NewV4 kv w).1.1.String = u) :
    (GetTodo kv u (CreateTodo kv P w).2).1 =
      ({ ID := u, Title := P.Title, Description := P.Description }, none) := by
  subst hu
  rcases hr : w.ext.rand w.ext.next with ⟨g, gerr⟩
  cases gerr with
  | some e => simp [CreateTodo, uuid.NewV4, kv, hr] at hok
  | none =>
    cases hd : w.ext.down with
    | some e => simp [CreateTodo, uuid.NewV4, db.PutItem, kv, hr, hd] at hok
    | none =>
      simp [CreateTodo, uuid.NewV4, db.PutItem, kv, hr, hd, GetTodo, db.GetItem, keyOf,
        List.lookup, UnmarshalMap_created]

/-- C1 over the model store holding one other item: a Todo created with a caller-supplied id
is read back under the generated id. -/
theorem create_then_get_round_trip_witness :
    (GetTodo kv (UUID.const 0).String
      (CreateTodo kv { ID := "mine", Title := "x", Description := "y" }
        (World.init [[("id", AttributeValue.S "other"), ("title", AttributeValue.S "z")]]
          none)).2).1 =
      ({ ID := (UUID.const 0).String, Title := "x", Description := "y" }, none) :=
  create_then_get_round_trip { ID := "mine", Title := "x", Description := "y" }
    (World.init [[("id", AttributeValue.S "other"), ("title", AttributeValue.S "z")]] none)
    (UUID.const 0).String rfl rfl

/-- C2: every POST request, whatever its path, gets the create handler's response.  That
response is status 201 with body `Created` exactly when the body parses as a JSON Todo and
the insert succeeds.  When parsing fails, it is status 500 with the parse error's message,
which is not empty, as body, and the store is not touched (no call, no identifier
generated); for the body `{` the message is `unexpected end of JSON input`.  When the insert
fails, it is status 500 with the message of that error as body.  Parsing is `json.Unmarshal`
with its limit on nesting, so a body nested too deep is a parse failure. -/
theorem post_is_handled_by_create (env : Env σ) (req : APIGatewayProxyRequest) (w : World σ)
    (hpost : req.HTTPMethod = "POST") :
    router env req w = handleCreateTodo env req w ∧
    ((router env req w).1.1 = { StatusCode := 201, Body := "Created" } ↔
      ((json.Unmarshal req.Body Todo.zero).2 = none ∧
        (CreateTodo env (json.Unmarshal req.Body Todo.zero).1 w).1 = none)) ∧
    (∀ e : error, (json.Unmarshal req.Body Todo.zero).2 = some e →
      (router env req w).1.1 = { StatusCode := 500, Body := e } ∧ e ≠ "" ∧
      (router env req w).2.calls = w.calls ∧ (router env req w).2.ext = w.ext) ∧
    (req.Body = "\x7b" →
      (router env req w).1.1 = { StatusCode := 500, Body := "unexpected end of JSON input" }) ∧
    (∀ e : error, (json.Unmarshal req.Body Todo.zero).2 = none →
      (CreateTodo env (json.Unmarshal req.Body Todo.zero).1 w).1 = some e →
      (router env req w).1.1 = { StatusCode := 500, Body := e }) := by
  have hget : req.HTTPMethod ≠ "GET" := by rw [hpost]; decide
  have hr : router env req w = handleCreateTodo env req w := by
    simp [router, routerGet, hget, hpost]
  have hfail : ∀ e : error, (json.Unmarshal req.Body Todo.zero).2 = some e →
      (router env req w).1.1 = { StatusCode := 500, Body := e } ∧ e ≠ "" ∧
      (router env req w).2.calls = w.calls ∧ (router env req w).2.ext = w.ext := by
    intro e he
    rw [hr, handleCreateTodo_parse_error env req w e he]
    exact ⟨rfl, Unmarshal_error_ne_empty _ _ e he, rfl, rfl⟩
  refine ⟨hr, ?_, hfail, ?_, ?_⟩
  · rw [hr]
    cases hp : (json.Unmarshal req.Body Todo.zero).2 with
    | some e => simp [handleCreateTodo_parse_error env req w e hp]
    | none =>
      rw [handleCreateTodo_parsed env req w hp]
      rcases hc : CreateTodo env (json.Unmarshal req.Body Todo.zero).1 w with ⟨cerr, w1⟩
      cases cerr <;> simp
  · intro hb
    exact (hfail "unexpected end of JSON input" (by rw [hb]; decide)).1
  · intro e hp hc
    rw [hr, handleCreateTodo_parsed env req w hp]
    rcases hc1 : CreateTodo env (json.Unmarshal req.Body Todo.zero).1 w with ⟨cerr, w1⟩
    rw [hc1] at hc
    simp only at hc
    subst hc
    rfl

/-- C2 over the model store: a well-formed POST is answered 201 `Created`, the body `{` 500
with the parse error's message, a POST during an outage 500 with the store's error, and a body
nested deeper than the syntax check allows 500 with that parse error, without a store call. -/
theorem post_is_handled_by_create_witness :
    (router kv reqPost (World.init [] none)).1.1 = { StatusCode := 201, Body := "Created" } ∧
    (router kv { reqPost with Body := "\x7b" } (World.init [] none)).1.1 =
      { StatusCode := 500, Body := "unexpected end of JSON input" } ∧
    (router kv reqPost (World.init [] (some "RequestError: send request failed"))).1.1 =
      { StatusCode := 500, Body := "RequestError: send request failed" } ∧
    ((router kv reqDeep (World.init [] none)).1.1 =
        { StatusCode := 500, Body := "invalid character '[' exceeded max depth" } ∧
      (router kv reqDeep (World.init [] none)).2.calls = []) :=
  ⟨(post_is_handled_by_create kv reqPost (World.init [] none) rfl).2.1.mpr
      ⟨by decide, by decide⟩,
   (post_is_handled_by_create kv { reqPost with Body := "\x7b" } (World.init [] none)
      rfl).2.2.2.1 rfl,
   (post_is_handled_by_create kv reqPost
      (World.init [] (some "RequestError: send request failed")) rfl).2.2.2.2
      "RequestError: send request failed" (by decide) (by decide),
   ((post_is_handled_by_create kv reqDeep (World.init [] none) rfl).2.2.1
      "invalid character '[' exceeded max depth"
      (congrArg Prod.snd (Unmarshal_nested_too_deep Todo.zero))).1,
   ((post_is_handled_by_create kv reqDeep (World.init [] none) rfl).2.2.1
      "invalid character '[' exceeded max depth"
      (congrArg Prod.snd (Unmarshal_nested_too_deep Todo.zero))).2.2.1⟩

/-- C3, as stated, fails: the path of `GET /x/todos/y` is neither `/todos` nor `/todos/`
followed by a segment, yet over the empty model store `router` answers 200 with the encoded
empty `Todo`, not 405, and issues a point lookup on the store. -/
theorem router_get_nested_path_is_served :
    reqNested.HTTPMethod = "GET" ∧ reqNested.Path ≠ "/todos" ∧
    (∀ s : String, reqNested.Path ≠ "/todos/" ++ s) ∧
    (router kv reqNested (World.init [] none)).1 =
      ({ StatusCode := 200, Body := "\x7b\"title\":\"\",\"description\":\"\"\x7d" }, none) ∧
    (router kv reqNested (World.init [] none)).2.calls =
      [Call.GetItem { TableName := "go-serverless-api", Key := [("id", AttributeValue.S "y")] }] := by
  refine ⟨rfl, by decide, ?_, by decide, by decide⟩
  intro s h
  have h1 := congrArg String.data h
  simp [reqNested] at h1

/-- C3 (amended): a request whose method is neither GET nor POST, and a GET request whose
path is not exactly `/todos` and holds no occurrence of `/todos/` directly followed by a
character other than the line feed, gets status 405 with body `Method Not Allowed`, and the
world is left as it was: no store call is made and nothing is printed. -/
theorem router_method_not_allowed (env : Env σ) (req : APIGatewayProxyRequest) (w : World σ)
    (h : (req.HTTPMethod ≠ "GET" ∧ req.HTTPMethod ≠ "POST") ∨
      (req.HTTPMethod = "GET" ∧ req.Path ≠ "/todos" ∧
        ¬ ∃ pre c post, req.Path.data = pre ++ "/todos/".data ++ c :: post ∧
          c ≠ Char.ofNat 10)) :
    router env req w = (({ StatusCode := 405, Body := "Method Not Allowed" }, none), w) := by
  rcases h with ⟨hg, hp⟩ | ⟨hg, hp, hm⟩
  · simp [router, routerGet, hg, hp, http.StatusMethodNotAllowed, http.StatusText]
  · rw [← matchAnywhere_iff] at hm
    have hpost : req.HTTPMethod ≠ "POST" := by rw [hg]; decide
    simp [router, routerGet, hg, hp, hm, hpost, regexp.MatchString,
      http.StatusMethodNotAllowed, http.StatusText]

/-- C3 (amended) at `DELETE /todos`, `GET /todos/` and `GET /other` over the model store. -/
theorem router_method_not_allowed_witness :
    router kv { HTTPMethod := "DELETE", Path := "/todos", PathParameters := [], Body := "" }
        (World.init [] none) =
      (({ StatusCode := 405, Body := "Method Not Allowed" }, none), World.init [] none) ∧
    router kv { HTTPMethod := "GET", Path := "/todos/", PathParameters := [], Body := "" }
        (World.init [] none) =
      (({ StatusCode := 405, Body := "Method Not Allowed" }, none), World.init [] none) ∧
    router kv { HTTPMethod := "GET", Path := "/other", PathParameters := [], Body := "" }
        (World.init [] none) =
      (({ StatusCode := 405, Body := "Method Not Allowed" }, none), World.init [] none) :=
  ⟨router_method_not_allowed kv _ _ (Or.inl (by decide)),
   router_method_not_allowed kv _ _
     (Or.inr ⟨rfl, by decide, fun h => absurd ((matchAnywhere_iff _).2 h) (by decide)⟩),
   router_method_not_allowed kv _ _
     (Or.inr ⟨rfl, by decide, fun h => absurd ((matchAnywhere_iff _).2 h) (by decide)⟩)⟩

/-- C4, as stated, fails: for the non-empty segment made of one line feed, `router` answers
405 without a store call, while `handleGetTodo` answers 200 after a point lookup. -/
theorem router_line_feed_segment_is_405 :
    reqLineFeed.HTTPMethod = "GET" ∧ reqLineFeed.Path = "/todos/" ++ "\n" ∧ "\n" ≠ "" ∧
    (router kv reqLineFeed (World.init [] none)).1 =
      ({ StatusCode := 405, Body := "Method Not Allowed" }, none) ∧
    (router kv reqLineFeed (World.init [] none)).2.calls = [] ∧
    (handleGetTodo kv reqLineFeed (World.init [] none)).1 =
      ({ StatusCode := 200, Body := "\x7b\"title\":\"\",\"description\":\"\"\x7d" }, none) ∧
    (handleGetTodo kv reqLineFeed (World.init [] none)).2.calls =
      [Call.GetItem { TableName := "go-serverless-api", Key := [("id", AttributeValue.S "\n")] }] := by
  decide

/-- C4 (amended): for every string `s` whose first character exists and is not the line feed,
a GET request with path `/todos/` followed by `s` is dispatched to the read-one handler:
`router` returns what `handleGetTodo` returns for that request, the one store call issued is
the point lookup, and the result is neither what the read-all handler returns nor the 405
response. -/
theorem router_get_segment_reads_one (env : Env σ) (w : World σ) (s : String)
    (params : List (String × String)) (body : String)
    (hs : ∃ c rest, s.data = c :: rest ∧ c ≠ Char.ofNat 10) :
    router env (APIGatewayProxyRequest.mk "GET" ("/todos/" ++ s) params body) w =
      handleGetTodo env (APIGatewayProxyRequest.mk "GET" ("/todos/" ++ s) params body) w ∧
    (router env (APIGatewayProxyRequest.mk "GET" ("/todos/" ++ s) params body) w).2.calls =
      w.calls ++ [Call.GetItem { TableName := tableName,
                                 Key := [("id", AttributeValue.S (mapIndex params "id"))] }] ∧
    router env (APIGatewayProxyRequest.mk "GET" ("/todos/" ++ s) params body) w ≠
      handleGetTodos env (APIGatewayProxyRequest.mk "GET" ("/todos/" ++ s) params body) w ∧
    router env (APIGatewayProxyRequest.mk "GET" ("/todos/" ++ s) params body) w ≠
      (({ StatusCode := 405, Body := "Method Not Allowed" }, none), w) := by
  have hr := router_of_match env (APIGatewayProxyRequest.mk "GET" ("/todos/" ++ s) params body)
    w rfl (matchAnywhere_todos_segment s hs)
  have hc := handleGetTodo_calls env
    (APIGatewayProxyRequest.mk "GET" ("/todos/" ++ s) params body) w
  refine ⟨hr, by rw [hr, hc], ?_, ?_⟩
  · intro h
    have h1 := congrArg (fun r => r.2.calls) h
    simp only [hr, hc, handleGetTodos_calls] at h1
    simp at h1
  · intro h
    have h1 := congrArg (fun r => r.2.calls) h
    simp only [hr, hc] at h1
    simp at h1

/-- C4 (amended) at `GET /todos/x` over the model store. -/
theorem router_get_segment_reads_one_witness :
    (∃ c rest, "x".data = c :: rest ∧ c ≠ Char.ofNat 10) ∧
    router kv (APIGatewayProxyRequest.mk "GET" ("/todos/" ++ "x") [("id", "x")] "")
        (World.init [] none) =
      handleGetTodo kv (APIGatewayProxyRequest.mk "GET" ("/todos/" ++ "x") [("id", "x")] "")
        (World.init [] none) :=
  ⟨⟨'x', [], rfl, by decide⟩,
   (router_get_segment_reads_one kv (World.init [] none) "x" [("id", "x")] ""
      ⟨'x', [], rfl, by decide⟩).1⟩

/-- C5, as stated, fails: `GET /todos/abc` is routed to the read-one handler, and with the
path parameter `id` set to `xyz` the key of the point lookup is `xyz`, not the trailing
segment `abc` of the path. -/
theorem read_one_key_is_not_the_path_segment :
    reqAbc.HTTPMethod = "GET" ∧ reqAbc.Path = "/todos/" ++ "abc" ∧
    (regexp.MatchString "/todos/.+" reqAbc.Path).1 = true ∧
    (router kv reqAbc (World.init [] none)).1 = (handleGetTodo kv reqAbc (World.init [] none)).1 ∧
    (router kv reqAbc (World.init [] none)).2.calls =
      [Call.GetItem { TableName := "go-serverless-api",
                      Key := [("id", AttributeValue.S "xyz")] }] ∧
    (router kv reqAbc (World.init [] none)).2.calls ≠
      [Call.GetItem { TableName := "go-serverless-api",
                      Key := [("id", AttributeValue.S "abc")] }] := by
  decide

/-- C5 (amended): for every GET request with path `/todos/` followed by `s` that is routed to
the read-one handler, the identifier passed to `GetTodo` is the value the request's
path-parameter map holds under `id` (the empty string when it holds none): the store is left
as `GetTodo` on that identifier leaves it, and the one call issued is the point lookup of
that identifier.  It is the trailing segment `s` when the map binds `id` to `s`. -/
theorem read_one_key_is_the_path_parameter (env : Env σ) (req : APIGatewayProxyRequest)
    (w : World σ) (s : String) (hget : req.HTTPMethod = "GET")
    (hpath : req.Path = "/todos/" ++ s) (hrouted : (regexp.MatchString "/todos/.+" req.Path).1 = true) :
    router env req w = handleGetTodo env req w ∧
    (router env req w).2.ext = (GetTodo env (mapIndex req.PathParameters "id") w).2.ext ∧
    (router env req w).2.calls = (GetTodo env (mapIndex req.PathParameters "id") w).2.calls ∧
    (router env req w).2.calls = w.calls ++
      [Call.GetItem { TableName := tableName,
                      Key := [("id", AttributeValue.S (mapIndex req.PathParameters "id"))] }] ∧
    (req.PathParameters.lookup "id" = some s →
      (router env req w).2.calls = w.calls ++
        [Call.GetItem { TableName := tableName, Key := [("id", AttributeValue.S s)] }]) ∧
    (req.PathParameters.lookup "id" = none →
      (router env req w).2.calls = w.calls ++
        [Call.GetItem { TableName := tableName, Key := [("id", AttributeValue.S "")] }]) := by
  have _ := hpath
  have hr := router_of_match env req w hget hrouted
  rw [hr]
  refine ⟨rfl, (handleGetTodo_world env req w).1, (handleGetTodo_world env req w).2,
    handleGetTodo_calls env req w, ?_, ?_⟩
  · intro hl
    rw [handleGetTodo_calls]
    simp [mapIndex, hl]
  · intro hl
    rw [handleGetTodo_calls]
    simp [mapIndex, hl]

/-- C5 (amended) at `GET /todos/abc` with the path parameter `id = xyz`. -/
theorem read_one_key_is_the_path_parameter_witness :
    (router kv reqAbc (World.init [] none)).2.calls = (World.init [] none).calls ++
      [Call.GetItem { TableName := tableName,
                      Key := [("id", AttributeValue.S (mapIndex reqAbc.PathParameters "id"))] }] :=
  (read_one_key_is_the_path_parameter kv reqAbc (World.init [] none) "abc" rfl (by decide)
    (by decide)).2.2.2.1

/-- C6: for every id, when the point lookup succeeds and returns no item, `GetTodo` returns
the zero `Todo` (empty id, title and description) with a nil error, and `handleGetTodo`, for a
request asking for that id, answers 200 with the JSON encoding of that `Todo`, in which the
empty id is left out. -/
theorem get_missing_item_is_not_an_error (env : Env σ) (req : APIGatewayProxyRequest)
    (w : World σ) (id : String) (st : σ) (hid : mapIndex req.PathParameters "id" = id)
    (hlookup : env.GetItem { TableName := tableName, Key := [("id", AttributeValue.S id)] } w.ext
      = (({ Item := none }, none), st)) :
    (GetTodo env id w).1 = ({ ID := "", Title := "", Description := "" }, none) ∧
    (handleGetTodo env req w).1 =
      ({ StatusCode := 200, Body := "\x7b\"title\":\"\",\"description\":\"\"\x7d" }, none) := by
  have hg : GetTodo env id w = ((Todo.zero, none),
      { w with ext := st, calls := w.calls ++ [Call.GetItem
        { TableName := tableName, Key := [("id", AttributeValue.S id)] }] }) := by
    simp [GetTodo, db.GetItem, hlookup]
  have hm : json.MarshalTodo Todo.zero =
      ("\x7b\"title\":\"\",\"description\":\"\"\x7d", none) := by decide
  refine ⟨by rw [hg]; rfl, ?_⟩
  simp [handleGetTodo, hid, hg, hm, http.StatusOK]

/-- C6 at `GET /todos/abc` with `id = xyz` over the empty model store. -/
theorem get_missing_item_is_not_an_error_witness :
    (GetTodo kv "xyz" (World.init [] none)).1 = ({ ID := "", Title := "", Description := "" }, none) ∧
    (handleGetTodo kv reqAbc (World.init [] none)).1 =
      ({ StatusCode := 200, Body := "\x7b\"title\":\"\",\"description\":\"\"\x7d" }, none) :=
  get_missing_item_is_not_an_error kv reqAbc (World.init [] none) "xyz"
    (World.init [] none).ext rfl rfl

/-- C7: every GET request with path exactly `/todos` is dispatched to the read-all handler,
and when the scan succeeds with zero items the response is 200 with body exactly `[]`, which
is not `null`. -/
theorem get_todos_of_empty_table (env : Env σ) (req : APIGatewayProxyRequest) (w : World σ)
    (hget : req.HTTPMethod = "GET") (hpath : req.Path = "/todos") :
    router env req w = handleGetTodos env req w ∧
    ∀ (out : ScanOutput) (st : σ),
      env.Scan { TableName := tableName } w.ext = ((out, none), st) → out.Items.length = 0 →
      (router env req w).1 = ({ StatusCode := 200, Body := "[]" }, none) ∧
      (router env req w).1.1.Body ≠ "null" := by
  have hm : matchAnywhere (compile "/todos/.+".data) "/todos".data = false := by decide
  have hr : router env req w = handleGetTodos env req w := by
    simp [router, routerGet, hget, hpath, regexp.MatchString, hm]
  refine ⟨hr, ?_⟩
  intro out st hscan hlen
  have hg : GetTodos env w = ((some [], none),
      { w with ext := st, calls := w.calls ++ [Call.Scan { TableName := tableName }] }) := by
    simp [GetTodos, db.Scan, hscan, hlen]
  have hh : (handleGetTodos env req w).1 = ({ StatusCode := 200, Body := "[]" }, none) := by
    have hm : json.MarshalTodos (some []) = ("[]", none) := by decide
    simp [handleGetTodos, hg, hm, http.StatusOK]
  rw [hr, hh]
  exact ⟨rfl, by decide⟩

/-- C7 at `GET /todos` over the empty model store. -/
theorem get_todos_of_empty_table_witness :
    (router kv (APIGatewayProxyRequest.mk "GET" "/todos" [] "") (World.init [] none)).1 =
      ({ StatusCode := 200, Body := "[]" }, none) :=
  ((get_todos_of_empty_table kv (APIGatewayProxyRequest.mk "GET" "/todos" [] "")
    (World.init [] none) rfl rfl).2 { Items := [] } (World.init [] none).ext rfl rfl).1

/-- C8: on the read paths the store's error does not reach the caller: whenever `GetTodo`
(in `handleGetTodo`) or `GetTodos` (in `handleGetTodos`) fails, with whatever error, the
response is status 500 with body exactly `Internal Server Error`. -/
theorem read_paths_hide_store_errors (env : Env σ) (req : APIGatewayProxyRequest)
    (w : World σ) :
    (∀ e : error, (GetTodo env (mapIndex req.PathParameters "id") w).1.2 = some e →
      (handleGetTodo env req w).1 =
        ({ StatusCode := 500, Body := "Internal Server Error" }, none)) ∧
    (∀ e : error, (GetTodos env w).1.2 = some e →
      (handleGetTodos env req w).1 =
        ({ StatusCode := 500, Body := "Internal Server Error" }, none)) := by
  constructor
  · intro e he
    unfold handleGetTodo
    simp only []
    split
    · simp [http.StatusInternalServerError, http.StatusText]
    · rename_i h
      rw [h] at he
      cases he
  · intro e he
    unfold handleGetTodos
    split
    · simp [http.StatusInternalServerError, http.StatusText]
    · rename_i h
      rw [h] at he
      cases he

/-- C8 over the model store during an outage, for two different errors. -/
theorem read_paths_hide_store_errors_witness :
    (handleGetTodo kv reqAbc (World.init [] (some "RequestError: send request failed"))).1 =
      ({ StatusCode := 500, Body := "Internal Server Error" }, none) ∧
    (handleGetTodos kv reqAbc (World.init [] (some "ResourceNotFoundException"))).1 =
      ({ StatusCode := 500, Body := "Internal Server Error" }, none) :=
  ⟨(read_paths_hide_store_errors kv reqAbc
      (World.init [] (some "RequestError: send request failed"))).1
      "RequestError: send request failed" rfl,
   (read_paths_hide_store_errors kv reqAbc (World.init [] (some "ResourceNotFoundException"))).2
      "ResourceNotFoundException" rfl⟩

/-- C9: no handler fails the request: for every request, every environment (so every outcome
of the store calls and of identifier generation) and every body, `router`, `handleGetTodo`,
`handleGetTodos` and `handleCreateTodo` return a nil error with their response, and the
status of the response is 200, 201, 405 or 500. -/
theorem handlers_return_nil_error (env : Env σ) (req : APIGatewayProxyRequest) (w : World σ) :
    ((router env req w).1.2 = none ∧ (router env req w).1.1.StatusCode ∈ [200, 201, 405, 500]) ∧
    ((handleGetTodo env req w).1.2 = none ∧
      (handleGetTodo env req w).1.1.StatusCode ∈ [200, 201, 405, 500]) ∧
    ((handleGetTodos env req w).1.2 = none ∧
      (handleGetTodos env req w).1.1.StatusCode ∈ [200, 201, 405, 500]) ∧
    ((handleCreateTodo env req w).1.2 = none ∧
      (handleCreateTodo env req w).1.1.StatusCode ∈ [200, 201, 405, 500]) := by
  have h1 := handleGetTodo_response env req w
  have h2 := handleGetTodos_response env req w
  have h3 := handleCreateTodo_response env req w
  refine ⟨?_, ⟨h1.1, ?_⟩, ⟨h2.1, ?_⟩, ⟨h3.1, ?_⟩⟩
  · rcases router_cases env req w with h | h | h | h <;> rw [h]
    · exact ⟨h1.1, by rcases h1.2 with h | h <;> simp [h]⟩
    · exact ⟨h2.1, by rcases h2.2 with h | h <;> simp [h]⟩
    · exact ⟨h3.1, by rcases h3.2 with h | h <;> simp [h]⟩
    · simp
  · rcases h1.2 with h | h <;> simp [h]
  · rcases h2.2 with h | h <;> simp [h]
  · rcases h3.2 with h | h <;> simp [h]

/-- C10: a caller-supplied id is ignored on create.  When identifier generation succeeds with
`g`, the one store call `CreateTodo` issues is the insert of the record with exactly the three
attributes `id` (the text of `g`), `title` and `description`; two Todos with the same title
and description give the same result, whatever their `ID`; and when identifier generation
fails, its error is returned and no store call is issued. -/
theorem create_ignores_caller_id (env : Env σ) (t : Todo) (w : World σ) :
    (∀ (g : UUID) (st : σ), env.NewV4 w.ext = ((g, none), st) →
      (CreateTodo env t w).2.calls = w.calls ++
        [Call.PutItem { TableName := tableName,
                        Item := [("id", AttributeValue.S g.String),
                                 ("title", AttributeValue.S t.Title),
                                 ("description", AttributeValue.S t.Description)] }]) ∧
    (∀ t2 : Todo, t2.Title = t.Title → t2.Description = t.Description →
      CreateTodo env t2 w = CreateTodo env t w) ∧
    (∀ (g : UUID) (e : error) (st : σ), env.NewV4 w.ext = ((g, some e), st) →
      (CreateTodo env t w).1 = some e ∧ (CreateTodo env t w).2.calls = w.calls) := by
  refine ⟨?_, ?_, ?_⟩
  · intro g st h
    simp [CreateTodo, uuid.NewV4, db.PutItem, h]
  · intro t2 h1 h2
    simp [CreateTodo, h1, h2]
  · intro g e st h
    simp [CreateTodo, uuid.NewV4, h]

/-- C10 over the model store: the record inserted for a Todo that carries an id. -/
theorem create_ignores_caller_id_witness :
    (CreateTodo kv { ID := "mine", Title := "x", Description := "y" } (World.init [] none)).2.calls =
      (World.init [] none).calls ++
        [Call.PutItem { TableName := tableName,
                        Item := [("id", AttributeValue.S (UUID.const 0).String),
                                 ("title", AttributeValue.S "x"),
                                 ("description", AttributeValue.S "y")] }] :=
  (create_ignores_caller_id kv { ID := "mine", Title := "x", Description := "y" }
    (World.init [] none)).1 (UUID.const 0) _ rfl

end GoServerlessApi
